import Mathlib

/-!
# Verification of the sg-property-analyser fiscal and market core

Shallow embedding of the Python sources `calculations.py`, `config.py`,
`models.py`, `analyze_property.py` and `market_data.py`.

Conventions of the embedding:
* Python floats are modelled as exact rationals (`ℚ`); `float('inf')` is
  modelled by a dedicated sentinel constructor where it can occur.
* Python `dict.get(key, default)` lookups over small literal tables are
  modelled by pattern matches / if-chains with the same default.
* ISO-8601 date strings (`"%Y-%m-%d"`) compare lexicographically exactly as
  their chronological order, so dates are modelled as integers (day numbers)
  and string comparison as integer comparison.
* Python's truthiness (`not x`, `x or y`) on optional numbers is modelled
  explicitly: `None` and `0` are falsy.
-/

namespace SgProperty

/-! ## config.py -/

/-- One BSD tier `(min, max, rate, description)` from `config.DEFAULT_BSD_TIERS`.
`upper = none` models the Python `float('inf')` upper bound of the last tier. -/
structure Tier where
  lower : ℚ
  upper : Option ℚ
  rate : ℚ
  description : String
deriving DecidableEq

/-- `config.DEFAULT_BSD_TIERS` (rates written as exact rationals: 0.01 = 1/100, …). -/
def DEFAULT_BSD_TIERS : List Tier :=
  [⟨0, some 180000, 1/100, "1% on first $180,000"⟩,
   ⟨180000, some 640000, 2/100, "2% on next $460,000"⟩,
   ⟨640000, some 1000000, 3/100, "3% on next $360,000"⟩,
   ⟨1000000, some 1500000, 4/100, "4% on next $500,000"⟩,
   ⟨1500000, some 3000000, 5/100, "5% on next $1.5M"⟩,
   ⟨3000000, none, 6/100, "6% on remaining"⟩]

/-- `config.DEFAULT_INTEREST_RATE` (0.035). -/
def DEFAULT_INTEREST_RATE : ℚ := 35/1000

/-- `config.DEFAULT_LOAN_TENURE`. -/
def DEFAULT_LOAN_TENURE : ℕ := 25

/-- `config.DEFAULT_LEGAL_FEES`. -/
def DEFAULT_LEGAL_FEES : ℚ := 3000

/-- `config.DEFAULT_ABSD_RATES` as a lookup with the `dict.get(buyer_type, (0, ""))`
default, i.e. `Config.get_absd_rate`. -/
def get_absd_rate (buyer_type : String) : ℚ × String :=
  if buyer_type = "singaporean_first" then (0, "0% - No ABSD for first property")
  else if buyer_type = "singaporean_second" then (20/100, "20% - Second property")
  else if buyer_type = "singaporean_third" then (30/100, "30% - Third property onwards")
  else if buyer_type = "pr_first" then (5/100, "5% - PR buying first property")
  else if buyer_type = "pr_second" then (30/100, "30% - PR buying second property")
  else if buyer_type = "foreigner" then (60/100, "60% - Foreigner")
  else if buyer_type = "entity" then (65/100, "65% - Company/Trust")
  else (0, "")

/-- `config.DEFAULT_LTV_LIMITS` as a lookup with the `dict.get(loan_type, (0.75, ""))`
default, i.e. `Config.get_ltv_limit`. -/
def get_ltv_limit (loan_type : String) : ℚ × String :=
  if loan_type = "first_loan" then (75/100, "75% - First property loan")
  else if loan_type = "second_loan" then (45/100, "45% - Second property loan")
  else if loan_type = "third_loan" then (35/100, "35% - Third property loan")
  else (75/100, "")

/-! ## calculations.py -/

/-- `min(price, max_price)` where `max_price` may be the infinite upper bound. -/
def minUpper (price : ℚ) : Option ℚ → ℚ
  | none => price
  | some u => min price u

/-- The loop body of `calculate_bsd`, structurally recursive over the tier list.
The source accumulates `total` and appends `(description, amount)` breakdown
lines left to right; the Python code renders each line as a display string
`f"  • {description}: ${amount:,.0f}"`, modelled here as the pair itself. -/
def bsd_loop (price : ℚ) : List Tier → ℚ × List (String × ℚ)
  | [] => (0, [])
  | t :: ts =>
    let rest := bsd_loop price ts
    if t.lower < price then
      let taxable := minUpper price t.upper - t.lower
      let amount := taxable * t.rate
      (amount + rest.1, (if 0 < amount then [(t.description, amount)] else []) ++ rest.2)
    else rest

/-- `calculations.calculate_bsd`: progressive Buyer's Stamp Duty with breakdown. -/
def calculate_bsd (price : ℚ) : ℚ × List (String × ℚ) :=
  bsd_loop price DEFAULT_BSD_TIERS

/-- `calculations.calculate_absd`. -/
def calculate_absd (price : ℚ) (buyer_type : String) : ℚ × String :=
  let rd := get_absd_rate buyer_type
  (price * rd.1, rd.2)

/-- `calculations.calculate_mortgage_monthly` with explicit arguments
(the Python defaults pull `config.loan_tenure` / `config.interest_rate`;
callers in this development pass those values explicitly). -/
def calculate_mortgage_monthly (loan_amount : ℚ) (years : ℕ) (interest_rate : ℚ) : ℚ :=
  let monthly_rate := interest_rate / 12
  let num_payments := years * 12
  if monthly_rate = 0 then loan_amount / num_payments
  else loan_amount * (monthly_rate * (1 + monthly_rate) ^ num_payments) /
       ((1 + monthly_rate) ^ num_payments - 1)

/-- Result type of `calculate_tdsr`: a finite percentage or the
`float('inf')` sentinel. -/
inductive TdsrValue where
  | val (q : ℚ)
  | posInf
deriving DecidableEq

/-- `calculations.calculate_tdsr`. -/
def calculate_tdsr (monthly_mortgage other_debts monthly_income : ℚ) : TdsrValue :=
  if monthly_income ≤ 0 then TdsrValue.posInf
  else TdsrValue.val ((monthly_mortgage + other_debts) / monthly_income * 100)

/-- Round-half-to-even to an integer, the semantics of Python's built-in
`round` on the exact value. -/
def round_half_even (q : ℚ) : ℤ :=
  let n := ⌊q⌋
  let frac := q - n
  if frac < 1/2 then n
  else if 1/2 < frac then n + 1
  else if n % 2 = 0 then n else n + 1

/-- Python `round(q, 2)`: round-half-even at the second decimal place. -/
def pyRound2 (q : ℚ) : ℚ := (round_half_even (q * 100) : ℚ) / 100

/-- `calculations.can_qualify_for_loan` (the Python default `max_tdsr=55.0`
is passed explicitly by callers here). -/
def can_qualify_for_loan (tdsr : ℚ) (max_tdsr : ℚ) : Bool :=
  decide (pyRound2 tdsr ≤ max_tdsr)

/-! ## Specification side for the progressive duty (C1, C2)

`specAmount` is the spec's per-tier formula `max(0, min(p, upper) − lower) × rate`;
`specTotal` its sum over the configured tiers. -/

/-- The spec's per-tier duty amount `max(0, min(p, upper) − lower) × rate`. -/
def specAmount (p : ℚ) (t : Tier) : ℚ :=
  max 0 (minUpper p t.upper - t.lower) * t.rate

/-- The spec's total duty: sum of `specAmount` over the configured tiers. -/
def specTotal (p : ℚ) : ℚ :=
  (DEFAULT_BSD_TIERS.map (specAmount p)).sum

/-- Well-formedness of a tier: the upper bound (when finite) exceeds the lower
bound, and the rate is non-negative. Every configured tier satisfies this. -/
def TierWF (t : Tier) : Prop :=
  (match t.upper with | none => True | some u => t.lower < u) ∧ 0 ≤ t.rate

lemma default_tiers_wf : ∀ t ∈ DEFAULT_BSD_TIERS, TierWF t := by
  intro t ht
  simp only [DEFAULT_BSD_TIERS, List.mem_cons, List.not_mem_nil, or_false] at ht
  rcases ht with h | h | h | h | h | h <;> subst h <;>
    exact ⟨by norm_num [minUpper], by norm_num⟩

/-- The code's per-tier contribution agrees with the spec formula on
well-formed tiers. -/
lemma code_amount_eq_spec (p : ℚ) (t : Tier) (hwf : TierWF t) :
    (if t.lower < p then (minUpper p t.upper - t.lower) * t.rate else 0) =
      specAmount p t := by
  unfold specAmount
  by_cases h : t.lower < p
  · rw [if_pos h]
    have hm : t.lower ≤ minUpper p t.upper := by
      cases hu : t.upper with
      | none => simpa [minUpper] using h.le
      | some u =>
        have := hwf.1
        rw [hu] at this
        simp only [minUpper]
        exact le_min h.le this.le
    rw [max_eq_right (by linarith)]
  · rw [if_neg h]
    have hm : minUpper p t.upper ≤ t.lower := by
      cases hu : t.upper with
      | none => simpa [minUpper] using le_of_not_lt h
      | some u => exact le_trans (min_le_left _ _) (le_of_not_lt h)
    rw [max_eq_left (by linarith), zero_mul]

/-- `specAmount` is non-negative on well-formed tiers. -/
lemma specAmount_nonneg (p : ℚ) (t : Tier) (hwf : TierWF t) : 0 ≤ specAmount p t :=
  mul_nonneg (le_max_left _ _) hwf.2

/-- Total accumulated by the loop = sum of spec amounts. -/
lemma bsd_loop_total (p : ℚ) :
    ∀ ts : List Tier, (∀ t ∈ ts, TierWF t) →
      (bsd_loop p ts).1 = (ts.map (specAmount p)).sum := by
  intro ts
  induction ts with
  | nil => intro _; simp [bsd_loop]
  | cons t ts ih =>
    intro hwf
    have ht := hwf t (List.mem_cons_self t ts)
    have hts := fun u hu => hwf u (List.mem_cons_of_mem t hu)
    have hrest := ih hts
    by_cases h : t.lower < p
    · simp only [bsd_loop, if_pos h, List.map_cons, List.sum_cons]
      rw [← code_amount_eq_spec p t ht, if_pos h, hrest]
    · simp only [bsd_loop, if_neg h, List.map_cons, List.sum_cons]
      rw [← code_amount_eq_spec p t ht, if_neg h, hrest, zero_add]

/-- Breakdown produced by the loop = one `(description, amount)` entry per tier
with positive spec amount, in tier order. -/
lemma bsd_loop_breakdown (p : ℚ) :
    ∀ ts : List Tier, (∀ t ∈ ts, TierWF t) →
      (bsd_loop p ts).2 = ts.filterMap (fun t =>
        if 0 < specAmount p t then some (t.description, specAmount p t) else none) := by
  intro ts
  induction ts with
  | nil => intro _; simp [bsd_loop]
  | cons t ts ih =>
    intro hwf
    have ht := hwf t (List.mem_cons_self t ts)
    have hts := fun u hu => hwf u (List.mem_cons_of_mem t hu)
    have hrest := ih hts
    by_cases h : t.lower < p
    · have hamt : (minUpper p t.upper - t.lower) * t.rate = specAmount p t := by
        have := code_amount_eq_spec p t ht
        rwa [if_pos h] at this
      simp only [bsd_loop, if_pos h, List.filterMap_cons, hamt, hrest]
      by_cases hpos : 0 < specAmount p t
      · rw [if_pos hpos, if_pos hpos]; rfl
      · rw [if_neg hpos, if_neg hpos]; rfl
    · have hz : specAmount p t = 0 := by
        have := code_amount_eq_spec p t ht
        rw [if_neg h] at this
        exact this.symm
      simp only [bsd_loop, if_neg h, List.filterMap_cons, hz, hrest]
      rw [if_neg (lt_irrefl 0)]

/-- The breakdown amounts sum to the total (dropped entries are exactly the
zero amounts). -/
lemma breakdown_sum_eq_total (p : ℚ) :
    ∀ ts : List Tier, (∀ t ∈ ts, TierWF t) →
      (((bsd_loop p ts).2.map Prod.snd).sum) = (bsd_loop p ts).1 := by
  intro ts
  induction ts with
  | nil => intro _; simp [bsd_loop]
  | cons t ts ih =>
    intro hwf
    have ht := hwf t (List.mem_cons_self t ts)
    have hts := fun u hu => hwf u (List.mem_cons_of_mem t hu)
    have hrest := ih hts
    by_cases h : t.lower < p
    · have hamt : (minUpper p t.upper - t.lower) * t.rate = specAmount p t := by
        have := code_amount_eq_spec p t ht
        rwa [if_pos h] at this
      simp only [bsd_loop, if_pos h, hamt]
      by_cases hpos : 0 < specAmount p t
      · rw [if_pos hpos]
        simp only [List.map_append, List.sum_append, List.map_cons, List.sum_cons,
          List.map_nil, List.sum_nil, add_zero]
        rw [hrest]
      · have hz : specAmount p t = 0 :=
          le_antisymm (le_of_not_lt hpos) (specAmount_nonneg p t ht)
        rw [if_neg hpos]
        simp only [List.nil_append, hrest, hz, zero_add]
    · simp only [bsd_loop, if_neg h, hrest]

/-- For a non-positive price the duty is zero and the breakdown empty
(all tier lower bounds are ≥ 0). -/
lemma bsd_loop_nonpos (p : ℚ) (hp : p ≤ 0) :
    ∀ ts : List Tier, (∀ t ∈ ts, 0 ≤ t.lower) → bsd_loop p ts = (0, []) := by
  intro ts
  induction ts with
  | nil => intro _; rfl
  | cons t ts ih =>
    intro hlo
    have ht := hlo t (List.mem_cons_self t ts)
    have hts := fun u hu => hlo u (List.mem_cons_of_mem t hu)
    have h : ¬ t.lower < p := not_lt.mpr (hp.trans ht)
    simp only [bsd_loop, if_neg h, ih hts]

/-- The code's total equals the spec total. -/
lemma calculate_bsd_total_eq_spec (p : ℚ) : (calculate_bsd p).1 = specTotal p :=
  bsd_loop_total p DEFAULT_BSD_TIERS default_tiers_wf

lemma minUpper_mono {p1 p2 : ℚ} (h : p1 ≤ p2) (u : Option ℚ) :
    minUpper p1 u ≤ minUpper p2 u := by
  cases u with
  | none => exact h
  | some v => exact min_le_min h le_rfl

lemma specAmount_mono {p1 p2 : ℚ} (t : Tier) (hwf : TierWF t) (h : p1 ≤ p2) :
    specAmount p1 t ≤ specAmount p2 t :=
  mul_le_mul_of_nonneg_right
    (max_le_max le_rfl (sub_le_sub_right (minUpper_mono h t.upper) _)) hwf.2

lemma specTotal_mono {p1 p2 : ℚ} (h : p1 ≤ p2) : specTotal p1 ≤ specTotal p2 :=
  List.sum_le_sum fun t ht => specAmount_mono t (default_tiers_wf t ht) h

/-! Closed forms of `specTotal` on each tier's range. -/

lemma specTotal_closed1 (p : ℚ) (h1 : 0 ≤ p) (h2 : p ≤ 180000) :
    specTotal p = 1/100 * (p - 0) := by
  have e1 : min p (180000 : ℚ) = p := min_eq_left h2
  have e2 : min p (640000 : ℚ) = p := min_eq_left (by linarith)
  have e3 : min p (1000000 : ℚ) = p := min_eq_left (by linarith)
  have e4 : min p (1500000 : ℚ) = p := min_eq_left (by linarith)
  have e5 : min p (3000000 : ℚ) = p := min_eq_left (by linarith)
  simp only [specTotal, DEFAULT_BSD_TIERS, specAmount, minUpper, List.map_cons,
    List.map_nil, List.sum_cons, List.sum_nil, e1, e2, e3, e4, e5]
  rw [max_eq_right (by linarith), max_eq_left (by linarith),
    max_eq_left (by linarith), max_eq_left (by linarith),
    max_eq_left (by linarith), max_eq_left (by linarith)]
  ring

lemma specTotal_closed2 (p : ℚ) (h1 : 180000 ≤ p) (h2 : p ≤ 640000) :
    specTotal p = 1800 + 2/100 * (p - 180000) := by
  have e1 : min p (180000 : ℚ) = 180000 := min_eq_right h1
  have e2 : min p (640000 : ℚ) = p := min_eq_left h2
  have e3 : min p (1000000 : ℚ) = p := min_eq_left (by linarith)
  have e4 : min p (1500000 : ℚ) = p := min_eq_left (by linarith)
  have e5 : min p (3000000 : ℚ) = p := min_eq_left (by linarith)
  simp only [specTotal, DEFAULT_BSD_TIERS, specAmount, minUpper, List.map_cons,
    List.map_nil, List.sum_cons, List.sum_nil, e1, e2, e3, e4, e5]
  rw [max_eq_right (by linarith), max_eq_right (by linarith),
    max_eq_left (by linarith), max_eq_left (by linarith),
    max_eq_left (by linarith), max_eq_left (by linarith)]
  ring

lemma specTotal_closed3 (p : ℚ) (h1 : 640000 ≤ p) (h2 : p ≤ 1000000) :
    specTotal p = 11000 + 3/100 * (p - 640000) := by
  have e1 : min p (180000 : ℚ) = 180000 := min_eq_right (by linarith)
  have e2 : min p (640000 : ℚ) = 640000 := min_eq_right h1
  have e3 : min p (1000000 : ℚ) = p := min_eq_left h2
  have e4 : min p (1500000 : ℚ) = p := min_eq_left (by linarith)
  have e5 : min p (3000000 : ℚ) = p := min_eq_left (by linarith)
  simp only [specTotal, DEFAULT_BSD_TIERS, specAmount, minUpper, List.map_cons,
    List.map_nil, List.sum_cons, List.sum_nil, e1, e2, e3, e4, e5]
  rw [max_eq_right (by linarith), max_eq_right (by linarith),
    max_eq_right (by linarith), max_eq_left (by linarith),
    max_eq_left (by linarith), max_eq_left (by linarith)]
  ring

lemma specTotal_closed4 (p : ℚ) (h1 : 1000000 ≤ p) (h2 : p ≤ 1500000) :
    specTotal p = 21800 + 4/100 * (p - 1000000) := by
  have e1 : min p (180000 : ℚ) = 180000 := min_eq_right (by linarith)
  have e2 : min p (640000 : ℚ) = 640000 := min_eq_right (by linarith)
  have e3 : min p (1000000 : ℚ) = 1000000 := min_eq_right h1
  have e4 : min p (1500000 : ℚ) = p := min_eq_left h2
  have e5 : min p (3000000 : ℚ) = p := min_eq_left (by linarith)
  simp only [specTotal, DEFAULT_BSD_TIERS, specAmount, minUpper, List.map_cons,
    List.map_nil, List.sum_cons, List.sum_nil, e1, e2, e3, e4, e5]
  rw [max_eq_right (by linarith), max_eq_right (by linarith),
    max_eq_right (by linarith), max_eq_right (by linarith),
    max_eq_left (by linarith), max_eq_left (by linarith)]
  ring

lemma specTotal_closed5 (p : ℚ) (h1 : 1500000 ≤ p) (h2 : p ≤ 3000000) :
    specTotal p = 41800 + 5/100 * (p - 1500000) := by
  have e1 : min p (180000 : ℚ) = 180000 := min_eq_right (by linarith)
  have e2 : min p (640000 : ℚ) = 640000 := min_eq_right (by linarith)
  have e3 : min p (1000000 : ℚ) = 1000000 := min_eq_right (by linarith)
  have e4 : min p (1500000 : ℚ) = 1500000 := min_eq_right h1
  have e5 : min p (3000000 : ℚ) = p := min_eq_left h2
  simp only [specTotal, DEFAULT_BSD_TIERS, specAmount, minUpper, List.map_cons,
    List.map_nil, List.sum_cons, List.sum_nil, e1, e2, e3, e4, e5]
  rw [max_eq_right (by linarith), max_eq_right (by linarith),
    max_eq_right (by linarith), max_eq_right (by linarith),
    max_eq_right (by linarith), max_eq_left (by linarith)]
  ring

lemma specTotal_closed6 (p : ℚ) (h1 : 3000000 ≤ p) :
    specTotal p = 116800 + 6/100 * (p - 3000000) := by
  have e1 : min p (180000 : ℚ) = 180000 := min_eq_right (by linarith)
  have e2 : min p (640000 : ℚ) = 640000 := min_eq_right (by linarith)
  have e3 : min p (1000000 : ℚ) = 1000000 := min_eq_right (by linarith)
  have e4 : min p (1500000 : ℚ) = 1500000 := min_eq_right (by linarith)
  have e5 : min p (3000000 : ℚ) = 3000000 := min_eq_right h1
  simp only [specTotal, DEFAULT_BSD_TIERS, specAmount, minUpper, List.map_cons,
    List.map_nil, List.sum_cons, List.sum_nil, e1, e2, e3, e4, e5]
  rw [max_eq_right (by linarith), max_eq_right (by linarith),
    max_eq_right (by linarith), max_eq_right (by linarith),
    max_eq_right (by linarith), max_eq_right (by linarith)]
  ring

/-- `p` respects a tier's (possibly infinite) upper bound. -/
def withinUpper (p : ℚ) : Option ℚ → Prop
  | none => True
  | some u => p ≤ u

/-- Adjacency of consecutive tiers: each tier's upper bound is the next tier's
lower bound, and the final tier is unbounded. -/
def tiersAdjacent : Tier → List Tier → Prop
  | t, [] => t.upper = none
  | t, t' :: ts => t.upper = some t'.lower ∧ tiersAdjacent t' ts

/-- Contiguity of a tier list: starts at 0, consecutive tiers share their
boundary, and the last tier is unbounded — no gap, no overlap. -/
def tiersContiguous : List Tier → Prop
  | [] => False
  | t :: ts => t.lower = 0 ∧ tiersAdjacent t ts

lemma default_tiers_lower_nonneg : ∀ t ∈ DEFAULT_BSD_TIERS, 0 ≤ t.lower := by
  intro t ht
  simp only [DEFAULT_BSD_TIERS, List.mem_cons, List.not_mem_nil, or_false] at ht
  rcases ht with h | h | h | h | h | h <;> subst h <;> norm_num

/-- C1: for every price `p ≥ 0`, `calculate_bsd p` returns a total equal to the
sum over the configured tiers of `max(0, min(p, upper) − lower) × rate`, with
exactly one breakdown entry per tier whose amount is positive, and the breakdown
amounts sum to the total; `calculate_bsd 1200000` has total 29800, and for
`p ≤ 0` the total is 0 and the breakdown empty. -/
theorem bsd_progressive_duty_correct (p : ℚ) (_hp : 0 ≤ p) :
    (calculate_bsd p).1 = specTotal p ∧
    (calculate_bsd p).2 = DEFAULT_BSD_TIERS.filterMap (fun t =>
      if 0 < specAmount p t then some (t.description, specAmount p t) else none) ∧
    ((calculate_bsd p).2.map Prod.snd).sum = (calculate_bsd p).1 ∧
    (calculate_bsd 1200000).1 = 29800 ∧
    (∀ q : ℚ, q ≤ 0 → calculate_bsd q = (0, [])) := by
  refine ⟨calculate_bsd_total_eq_spec p,
    bsd_loop_breakdown p DEFAULT_BSD_TIERS default_tiers_wf,
    breakdown_sum_eq_total p DEFAULT_BSD_TIERS default_tiers_wf, ?_, ?_⟩
  · rw [calculate_bsd_total_eq_spec,
      specTotal_closed4 1200000 (by norm_num) (by norm_num)]
    norm_num
  · intro q hq
    exact bsd_loop_nonpos q hq DEFAULT_BSD_TIERS default_tiers_lower_nonneg

/-- Witness for C1 at the concrete price 1,200,000. -/
theorem bsd_progressive_duty_correct_witness : (calculate_bsd 1200000).1 = 29800 :=
  (bsd_progressive_duty_correct 1200000 (by norm_num)).2.2.2.1

/-- C2: the progressive duty total is monotonically non-decreasing in price,
and with the configured contiguous tiers each part of the price is taxed at
exactly one tier's rate: within any single tier's range the total grows
linearly at exactly that tier's rate (no gap, no double-counting), and the
configured tiers are contiguous from 0 with an unbounded final tier. -/
theorem bsd_monotone_and_continuous :
    (∀ p1 p2 : ℚ, p1 ≤ p2 → (calculate_bsd p1).1 ≤ (calculate_bsd p2).1) ∧
    (∀ t ∈ DEFAULT_BSD_TIERS, ∀ p1 p2 : ℚ, t.lower ≤ p1 → p1 ≤ p2 →
      withinUpper p2 t.upper →
      (calculate_bsd p2).1 - (calculate_bsd p1).1 = t.rate * (p2 - p1)) ∧
    tiersContiguous DEFAULT_BSD_TIERS := by
  refine ⟨?_, ?_, ?_⟩
  · intro p1 p2 h
    rw [calculate_bsd_total_eq_spec, calculate_bsd_total_eq_spec]
    exact specTotal_mono h
  · intro t ht p1 p2 hlo hle hup
    rw [calculate_bsd_total_eq_spec, calculate_bsd_total_eq_spec]
    simp only [DEFAULT_BSD_TIERS, List.mem_cons, List.not_mem_nil, or_false] at ht
    rcases ht with h | h | h | h | h | h <;> subst h <;>
      simp only [withinUpper] at hup <;> dsimp at hlo ⊢
    · rw [specTotal_closed1 p2 (by linarith) hup,
        specTotal_closed1 p1 hlo (by linarith)]
      ring
    · rw [specTotal_closed2 p2 (by linarith) hup,
        specTotal_closed2 p1 hlo (by linarith)]
      ring
    · rw [specTotal_closed3 p2 (by linarith) hup,
        specTotal_closed3 p1 hlo (by linarith)]
      ring
    · rw [specTotal_closed4 p2 (by linarith) hup,
        specTotal_closed4 p1 hlo (by linarith)]
      ring
    · rw [specTotal_closed5 p2 (by linarith) hup,
        specTotal_closed5 p1 hlo (by linarith)]
      ring
    · rw [specTotal_closed6 p2 (by linarith), specTotal_closed6 p1 hlo]
      ring
  · simp only [tiersContiguous, tiersAdjacent, DEFAULT_BSD_TIERS]
    norm_num

/-- Witness for C2: monotonicity at 500,000 ≤ 600,000 and the exact 2% slope
across [200,000, 640,000] inside the second tier. -/
theorem bsd_monotone_and_continuous_witness :
    (calculate_bsd 500000).1 ≤ (calculate_bsd 600000).1 ∧
    (calculate_bsd 640000).1 - (calculate_bsd 200000).1 = 2/100 * (640000 - 200000) := by
  constructor
  · exact bsd_monotone_and_continuous.1 500000 600000 (by norm_num)
  · have hmem : (⟨180000, some 640000, 2/100, "2% on next $460,000"⟩ : Tier) ∈
        DEFAULT_BSD_TIERS := by
      simp [DEFAULT_BSD_TIERS]
    exact bsd_monotone_and_continuous.2.1 _ hmem 200000 640000 (by norm_num)
      (by norm_num) (by simp only [withinUpper]; norm_num)

/-- C3: `calculate_mortgage_monthly` returns the standard amortization formula
`loan · r(1+r)ⁿ/((1+r)ⁿ−1)` with `r = annualRate/12`, `n = years·12` whenever
`r ≠ 0`, and `loan/n` when the annual rate is 0 (guarding the division by zero
in the power-difference formula); in particular
`calculate_mortgage_monthly 600000 25 0 = 2000`. -/
theorem mortgage_amortization_correct :
    (∀ (loan : ℚ) (years : ℕ) (rate : ℚ), rate ≠ 0 →
      calculate_mortgage_monthly loan years rate =
        loan * (rate / 12 * (1 + rate / 12) ^ (years * 12)) /
          ((1 + rate / 12) ^ (years * 12) - 1)) ∧
    (∀ (loan : ℚ) (years : ℕ),
      calculate_mortgage_monthly loan years 0 = loan / ((years * 12 : ℕ) : ℚ)) ∧
    calculate_mortgage_monthly 600000 25 0 = 2000 := by
  refine ⟨?_, ?_, ?_⟩
  · intro loan years rate hr
    have h12 : rate / 12 ≠ 0 := div_ne_zero hr (by norm_num)
    simp only [calculate_mortgage_monthly, if_neg h12]
  · intro loan years
    simp [calculate_mortgage_monthly]
  · norm_num [calculate_mortgage_monthly]

/-- Witness for C3: the nonzero-rate branch at a 50% annual rate over 1 year,
and the zero-rate branch at the spec's example. -/
theorem mortgage_amortization_correct_witness :
    calculate_mortgage_monthly 100 1 (1/2) =
      100 * (1/2/12 * (1 + 1/2/12) ^ (1 * 12)) / ((1 + 1/2/12) ^ (1 * 12) - 1) ∧
    calculate_mortgage_monthly 600000 25 0 = 2000 :=
  ⟨mortgage_amortization_correct.1 100 1 (1/2) (by norm_num),
   mortgage_amortization_correct.2.2⟩

/-- C4: `calculate_tdsr` returns `(mortgage + debts) / income × 100` when the
income is positive, and the positive-infinity sentinel (never an error)
whenever the income is ≤ 0. -/
theorem tdsr_sentinel_correct (m d i : ℚ) :
    (0 < i → calculate_tdsr m d i = TdsrValue.val ((m + d) / i * 100)) ∧
    (i ≤ 0 → calculate_tdsr m d i = TdsrValue.posInf) := by
  constructor
  · intro h
    simp [calculate_tdsr, not_le.mpr h]
  · intro h
    simp [calculate_tdsr, h]

/-- Witness for C4 at zero and at positive income. -/
theorem tdsr_sentinel_correct_witness :
    calculate_tdsr 5000 1000 0 = TdsrValue.posInf ∧
    calculate_tdsr 5000 1000 10000 = TdsrValue.val 60 := by
  constructor
  · exact (tdsr_sentinel_correct 5000 1000 0).2 le_rfl
  · rw [(tdsr_sentinel_correct 5000 1000 10000).1 (by norm_num)]
    norm_num

/-- C5: `can_qualify_for_loan t m` is true iff `t` rounded to 2 decimal places
(Python `round`, half-to-even) is ≤ `m`; at the default limit 55, a ratio of
exactly 55.00 qualifies, 55.01 does not, and 55.004999 rounds to 55.00 and
qualifies. -/
theorem qualify_rounded_threshold :
    (∀ t m : ℚ, can_qualify_for_loan t m = true ↔ pyRound2 t ≤ m) ∧
    can_qualify_for_loan 55 55 = true ∧
    can_qualify_for_loan (5501/100) 55 = false ∧
    pyRound2 (55004999/1000000) = 55 ∧
    can_qualify_for_loan (55004999/1000000) 55 = true := by
  refine ⟨?_, ?_, ?_, ?_, ?_⟩
  · intro t m
    simp [can_qualify_for_loan]
  · norm_num [can_qualify_for_loan, pyRound2, round_half_even, Int.floor_eq_iff]
  · norm_num [can_qualify_for_loan, pyRound2, round_half_even, Int.floor_eq_iff]
  · norm_num [pyRound2, round_half_even, Int.floor_eq_iff]
  · norm_num [can_qualify_for_loan, pyRound2, round_half_even, Int.floor_eq_iff]

/-! ## models.py and analyze_property.py -/

/-- `models.PropertyListing` (optional fields are Python `None`-able). -/
structure PropertyListing where
  url : String
  title : Option String
  price : Option ℚ
  size_sqft : Option ℚ
  bedrooms : Option ℤ
  bathrooms : Option ℤ
  tenure : Option String
  lease_years_remaining : Option ℤ
  property_type : Option String
  district : Option ℤ
  address : Option String
  maintenance_fee : Option ℚ

/-- `PropertyListing.psf`: `price / size_sqft` when the price is truthy and the
size is present and positive, else `None`. -/
def PropertyListing.psf (l : PropertyListing) : Option ℚ :=
  match l.price, l.size_sqft with
  | some p, some s => if p ≠ 0 ∧ 0 < s then some (p / s) else none
  | _, _ => none

/-- Python `needle` is a prefix of `hay` (on character lists). -/
def startsList : List Char → List Char → Bool
  | [], _ => true
  | _ :: _, [] => false
  | n :: ns, h :: hs => n = h && startsList ns hs

/-- Python `needle in hay` membership on character lists. -/
def occursList : List Char → List Char → Bool
  | needle, [] => needle.isEmpty
  | needle, h :: hs => startsList needle (h :: hs) || occursList needle hs

/-- Python's substring test `needle in hay`. -/
def strContains (hay needle : String) : Bool :=
  occursList needle.data hay.data

/-- Python `x or default` on an optional number: `None` and `0` are falsy. -/
def pyOrQ (x : Option ℚ) (dflt : ℚ) : ℚ :=
  match x with
  | some v => if v = 0 then dflt else v
  | none => dflt

/-- Python `x or default` on an optional integer: `None` and `0` are falsy. -/
def pyOrInt (x : Option ℤ) (dflt : ℤ) : ℤ :=
  match x with
  | some v => if v = 0 then dflt else v
  | none => dflt

/-- The premium-district set of `estimate_maintenance_fee`. -/
def premium_districts : List ℤ := [1, 2, 4, 9, 10, 11]

/-- `analyze_property.estimate_maintenance_fee`: the `base_fees` dict lookup
with default 300. The Python parameter is a `str` but callers may pass `None`,
which also falls to the default — hence `Option String` here. -/
def estimate_maintenance_fee (property_type : Option String) (district : ℤ) : ℚ :=
  if property_type = some "hdb" then 80
  else if property_type = some "condo" then
    (if district ∈ premium_districts then 400 else 300)
  else if property_type = some "landed" then 0
  else 300

/-- The result dict of `analyze_property.analyze_deal`, field for field. -/
structure DealAnalysis where
  price : ℚ
  bsd : ℚ
  bsd_breakdown : List (String × ℚ)
  absd : ℚ
  absd_desc : String
  legal_fees : ℚ
  agent_commission : ℚ
  down_payment : ℚ
  loan_amount : ℚ
  ltv_desc : String
  total_upfront : ℚ
  monthly_mortgage : ℚ
  monthly_maintenance : ℚ
  monthly_property_tax : ℚ
  total_monthly : ℚ
  psf : Option ℚ
  hdb_grants : ℚ
  is_hdb : Bool

/-- `analyze_property.analyze_deal`. Python raises `ValueError` for a falsy
(`None` or `0`) price and for a non-positive price; raising is modelled by
`Except.error` carrying the exception message.  The mortgage call uses the
configured defaults (25 years, 3.5%), and the maintenance figure uses Python's
`listing.maintenance_fee or estimate_maintenance_fee(..., listing.district or 19)`. -/
def analyze_deal (listing : PropertyListing) (buyer_type : String) (is_hdb : Bool) :
    Except String DealAnalysis :=
  match listing.price with
  | none => Except.error "Price is required for analysis"
  | some price =>
    if price = 0 then Except.error "Price is required for analysis"
    else if price ≤ 0 then Except.error "Price must be positive"
    else
      let bsdPair := calculate_bsd price
      let absdPair := calculate_absd price buyer_type
      let legal_fees := DEFAULT_LEGAL_FEES
      let agent_commission := if is_hdb then 0 else price * (1/100)
      let ltv_key := if strContains buyer_type "second" then "second_loan"
        else if strContains buyer_type "third" then "third_loan"
        else "first_loan"
      let ltvPair := get_ltv_limit ltv_key
      let loan_amount := price * ltvPair.1
      let down_payment := price - loan_amount
      let monthly_mortgage :=
        calculate_mortgage_monthly loan_amount DEFAULT_LOAN_TENURE DEFAULT_INTEREST_RATE
      let maintenance := pyOrQ listing.maintenance_fee
        (estimate_maintenance_fee listing.property_type (pyOrInt listing.district 19))
      let property_tax := price * (4/10000) / 12
      let total_upfront := down_payment + bsdPair.1 + absdPair.1 + legal_fees + agent_commission
      let total_monthly := monthly_mortgage + maintenance + property_tax
      let hdb_grants : ℚ := if is_hdb && strContains buyer_type "singaporean_first"
        then 80000 else 0
      Except.ok ⟨price, bsdPair.1, bsdPair.2, absdPair.1, absdPair.2, legal_fees,
        agent_commission, down_payment, loan_amount, ltvPair.2, total_upfront,
        monthly_mortgage, maintenance, property_tax, total_monthly, listing.psf,
        hdb_grants, is_hdb⟩

/-- C6: `analyze_deal` fails (returns an error, never a result) exactly when the
listing price is absent or ≤ 0, with a message naming the violated price
invariant (`"Price is required for analysis"` for an absent — or Python-falsy
zero — price, `"Price must be positive"` for a negative one); for every listing
with a positive price it returns an analysis. -/
theorem analyze_deal_price_guard (l : PropertyListing) (bt : String) (hdb : Bool) :
    (∀ p : ℚ, l.price = some p → 0 < p → ∃ a, analyze_deal l bt hdb = Except.ok a) ∧
    (l.price = none →
      analyze_deal l bt hdb = Except.error "Price is required for analysis") ∧
    (∀ p : ℚ, l.price = some p → p ≤ 0 →
      analyze_deal l bt hdb = Except.error
        (if p = 0 then "Price is required for analysis" else "Price must be positive")) := by
  refine ⟨?_, ?_, ?_⟩
  · intro p hp hpos
    simp only [analyze_deal, hp]
    rw [if_neg (ne_of_gt hpos), if_neg (not_le.mpr hpos)]
    exact ⟨_, rfl⟩
  · intro h
    simp only [analyze_deal, h]
  · intro p hp hle
    simp only [analyze_deal, hp]
    by_cases h0 : p = 0
    · rw [if_pos h0, if_pos h0]
    · rw [if_neg h0, if_pos hle, if_neg h0]

/-- Listing with a valid price (used to witness the success branch of C6). -/
def listingOkC6 : PropertyListing :=
  ⟨"manual", none, some 800000, some 900, none, none, none, none, some "condo",
    some 19, none, none⟩

/-- Listing with no price (used to witness the failure branch of C6). -/
def listingNoPrice : PropertyListing :=
  ⟨"manual", none, none, none, none, none, none, none, none, none, none, none⟩

/-- Listing with a negative price (used to witness the failure branch of C6). -/
def listingNegPrice : PropertyListing :=
  ⟨"manual", none, some (-5), none, none, none, none, none, none, none, none, none⟩

/-- Witness for C6: success at price 800,000, the absent-price error, and the
negative-price error. -/
theorem analyze_deal_price_guard_witness :
    (∃ a, analyze_deal listingOkC6 "singaporean_first" false = Except.ok a) ∧
    analyze_deal listingNoPrice "singaporean_first" false =
      Except.error "Price is required for analysis" ∧
    analyze_deal listingNegPrice "singaporean_first" false =
      Except.error "Price must be positive" := by
  refine ⟨?_, ?_, ?_⟩
  · exact (analyze_deal_price_guard listingOkC6 "singaporean_first" false).1
      800000 rfl (by norm_num)
  · exact (analyze_deal_price_guard listingNoPrice "singaporean_first" false).2.1 rfl
  · have h := (analyze_deal_price_guard listingNegPrice "singaporean_first" false).2.2
      (-5) rfl (by norm_num)
    rw [h, if_neg (by norm_num)]

/-! ## C7: the maintenance figure -/

/-- Whether the listing's district is one of the premium districts (the claim's
side condition, on the listing's own district field). -/
def districtIsPremium : Option ℤ → Bool
  | some v => decide (v ∈ premium_districts)
  | none => false

/-- The claim's fixed maintenance table, applied to the listing's own category
and district: hdb → 80, condo → 400 in premium districts else 300, landed → 0,
any other category → 300. -/
def claimMaintenanceTable (l : PropertyListing) : ℚ :=
  if l.property_type = some "hdb" then 80
  else if l.property_type = some "condo" then
    (if districtIsPremium l.district then 400 else 300)
  else if l.property_type = some "landed" then 0
  else 300

lemma premium_pyOr (d : Option ℤ) :
    (pyOrInt d 19 ∈ premium_districts) ↔ districtIsPremium d = true := by
  cases d with
  | none =>
    simp only [pyOrInt, districtIsPremium, premium_districts]
    norm_num
  | some v =>
    by_cases hv : v = 0
    · subst hv
      simp only [pyOrInt, if_pos rfl, districtIsPremium, premium_districts]
      norm_num
    · simp [pyOrInt, hv, districtIsPremium]

/-- The code's estimate at `district or 19` coincides with the claim's table on
the listing's own fields. -/
lemma estimate_eq_claimTable (l : PropertyListing) :
    estimate_maintenance_fee l.property_type (pyOrInt l.district 19) =
      claimMaintenanceTable l := by
  unfold estimate_maintenance_fee claimMaintenanceTable
  by_cases h1 : l.property_type = some "hdb"
  · rw [if_pos h1, if_pos h1]
  by_cases h2 : l.property_type = some "condo"
  · rw [if_neg h1, if_pos h2, if_neg h1, if_pos h2]
    by_cases hd : districtIsPremium l.district = true
    · rw [if_pos ((premium_pyOr l.district).mpr hd), if_pos hd]
    · rw [if_neg (fun hmem => hd ((premium_pyOr l.district).mp hmem)), if_neg hd]
  by_cases h3 : l.property_type = some "landed"
  · rw [if_neg h1, if_neg h2, if_pos h3, if_neg h1, if_neg h2]
  · rw [if_neg h1, if_neg h2, if_neg h3, if_neg h1, if_neg h2]

/-- Listing with a present but zero maintenance fee: Python's `or` treats the
0 as falsy and falls back to the estimate. -/
def listingZeroFeeC7 : PropertyListing :=
  ⟨"manual", none, some 500000, none, none, none, none, none, some "condo",
    some 19, none, some 0⟩

/-- C7 counterexample: this listing's maintenance fee is present (= 0), yet the
analysis reports the estimated 300, not the listed fee — refuting the claim
that the maintenance figure equals `listing.maintenance_fee` whenever present. -/
theorem maintenance_passthrough_counterexample :
    listingZeroFeeC7.maintenance_fee = some 0 ∧
    (analyze_deal listingZeroFeeC7 "singaporean_first" false).map
      (fun a => a.monthly_maintenance) = Except.ok 300 := by
  exact ⟨rfl, rfl⟩

/-- C7 (amended): in `analyze_deal`, the monthly maintenance figure equals
`listing.maintenance_fee` whenever that field is present and nonzero; when it
is absent or zero it is estimated from property category and district via the
fixed table (hdb → 80, condo → 400 in premium districts {1,2,4,9,10,11} else
300, landed → 0, any other category → 300). -/
theorem analyze_deal_maintenance_amended (l : PropertyListing) (bt : String)
    (hdb : Bool) (p : ℚ) (hp : l.price = some p) (hpos : 0 < p) :
    ∃ a, analyze_deal l bt hdb = Except.ok a ∧
      (∀ f : ℚ, l.maintenance_fee = some f → f ≠ 0 → a.monthly_maintenance = f) ∧
      ((l.maintenance_fee = none ∨ l.maintenance_fee = some 0) →
        a.monthly_maintenance = claimMaintenanceTable l) := by
  simp only [analyze_deal, hp]
  rw [if_neg (ne_of_gt hpos), if_neg (not_le.mpr hpos)]
  refine ⟨_, rfl, ?_, ?_⟩
  · intro f hf hfne
    simp [pyOrQ, hf, hfne]
  · intro hcase
    rcases hcase with h | h <;>
      simp [pyOrQ, h, estimate_eq_claimTable l]

/-- Listing with a present nonzero maintenance fee (used to witness C7). -/
def listingFeeC7 : PropertyListing :=
  ⟨"manual", none, some 500000, none, none, none, none, none, some "condo",
    some 19, none, some 250⟩

/-- Listing with no maintenance fee (used to witness C7). -/
def listingNoFeeC7 : PropertyListing :=
  ⟨"manual", none, some 500000, none, none, none, none, none, some "hdb",
    some 19, none, none⟩

/-- Witness for C7 (amended): the listed fee 250 passes through, and an absent
fee on an hdb listing yields the table's 80. -/
theorem analyze_deal_maintenance_amended_witness :
    (∃ a, analyze_deal listingFeeC7 "singaporean_first" false = Except.ok a ∧
      a.monthly_maintenance = 250) ∧
    (∃ a, analyze_deal listingNoFeeC7 "singaporean_first" false = Except.ok a ∧
      a.monthly_maintenance = 80) := by
  constructor
  · obtain ⟨a, ha, hfee, _⟩ := analyze_deal_maintenance_amended listingFeeC7
      "singaporean_first" false 500000 rfl (by norm_num)
    exact ⟨a, ha, hfee 250 rfl (by norm_num)⟩
  · obtain ⟨a, ha, _, hest⟩ := analyze_deal_maintenance_amended listingNoFeeC7
      "singaporean_first" false 500000 rfl (by norm_num)
    refine ⟨a, ha, ?_⟩
    rw [hest (Or.inl rfl)]
    rfl

/-! ## market_data.py

Dates: the code formats dates as ISO `"%Y-%m-%d"` strings and compares them
lexicographically, which coincides with chronological order; dates are
therefore modelled as integer day numbers relative to an arbitrary `now`.
Python's process-seeded `hash` of a string is modelled as an arbitrary
function `hashFn : String → ℤ` (all results hold for every such oracle). -/

/-- `market_data.Transaction`. -/
structure Transaction where
  address : String
  property_type : String
  size_sqft : ℚ
  price : ℚ
  date : ℤ
  tenure : Option String
  is_simulated : Bool
deriving DecidableEq

/-- `Transaction.psf`: `price / size_sqft` when the size is truthy and
positive, else 0 (guarding the division). -/
def Transaction.psf (t : Transaction) : ℚ :=
  if t.size_sqft ≠ 0 ∧ 0 < t.size_sqft then t.price / t.size_sqft else 0

/-- `market_data.MarketAnalysis` (the `generated_at` wall-clock timestamp is
not modelled). -/
structure MarketAnalysis where
  target_psf : ℚ
  avg_nearby_psf : ℚ
  median_nearby_psf : ℚ
  min_nearby_psf : ℚ
  max_nearby_psf : ℚ
  transactions : List Transaction
  price_trend : String
  is_simulated : Bool
  data_source : String

/-- The list comprehension `[t.psf for t in transactions if t.psf > 0]`. -/
def psf_values_of (txs : List Transaction) : List ℚ :=
  (txs.map Transaction.psf).filter (fun q => decide (0 < q))

/-- Transactions dated within 90 days of `now` (string comparison
`t.date >= (now - 90 days)` on ISO dates). -/
def recent_of (txs : List Transaction) (now : ℤ) : List Transaction :=
  txs.filter (fun t => decide (now - 90 ≤ t.date))

/-- Transactions older than 90 days. -/
def older_of (txs : List Transaction) (now : ℤ) : List Transaction :=
  txs.filter (fun t => decide (t.date < now - 90))

/-- `sum(...) / len(...)` over a list of rationals. -/
def avg_of (l : List ℚ) : ℚ := l.sum / (l.length : ℚ)

/-- The trend-classification block of `analyze_market`. -/
def trend_of (txs : List Transaction) (now : ℤ) : String :=
  let recent := recent_of txs now
  let older := older_of txs now
  if recent ≠ [] ∧ older ≠ [] then
    let recent_avg := avg_of (recent.map Transaction.psf)
    let older_avg := avg_of (older.map Transaction.psf)
    if recent_avg > older_avg * (105/100) then "rising"
    else if recent_avg < older_avg * (95/100) then "falling"
    else "stable"
  else "stable"

/-- Python `sorted` on rationals (ascending, stable). -/
def sortedAsc (l : List ℚ) : List ℚ := List.insertionSort (· ≤ ·) l

/-- The body of `market_data.analyze_market` after the transaction fetch,
parametrized by the fetched sample (the `TransactionSource` of the spec).
Raising `ValueError` is modelled by `Except.error` with the message. -/
def analyze_market_core (target_price target_size : ℚ)
    (transactions : List Transaction) (now : ℤ) : Except String MarketAnalysis :=
  if target_size ≤ 0 then Except.error "Target size must be positive"
  else
    let target_psf := target_price / target_size
    if transactions = [] then
      Except.ok ⟨target_psf, 0, 0, 0, 0, [], "unknown", true, "simulated"⟩
    else
      let psf_values := psf_values_of transactions
      if psf_values = [] then Except.error "No valid PSF data in transactions"
      else
        let avg_psf := psf_values.sum / (psf_values.length : ℚ)
        let median_psf := (sortedAsc psf_values).getD (psf_values.length / 2) 0
        let min_psf := psf_values.min?.getD 0
        let max_psf := psf_values.max?.getD 0
        Except.ok ⟨target_psf, avg_psf, median_psf, min_psf, max_psf, transactions,
          trend_of transactions now, true, "simulated"⟩

/-- The `district_multipliers` dict of `get_ura_transactions`, default 1.0. -/
def district_multiplier (d : ℤ) : ℚ :=
  if d = 9 then 2 else if d = 10 then 19/10 else if d = 11 then 17/10
  else if d = 1 then 16/10 else if d = 2 then 15/10 else if d = 4 then 14/10
  else if d = 15 then 15/10 else if d = 16 then 13/10 else if d = 18 then 12/10
  else if d = 19 then 12/10 else if d = 20 then 13/10 else if d = 21 then 14/10
  else if d = 22 then 11/10 else if d = 23 then 1 else if d = 24 then 9/10
  else if d = 25 then 9/10 else if d = 26 then 9/10 else if d = 27 then 9/10
  else if d = 28 then 1 else 1

/-- The `base_psf` dict of `get_ura_transactions`, default 1200. -/
def base_psf_of (property_type : String) : ℚ :=
  if property_type = "condo" then 1400
  else if property_type = "hdb" then 500
  else if property_type = "landed" then 1200
  else 1200

/-- The `sizes` list of `get_ura_transactions`. -/
def ura_sizes : List ℚ := [800, 900, 1000, 1100, 1200, 1300, 1500]

/-- The `streets` list of `get_ura_transactions`. -/
def ura_streets : List String := ["Street 1", "Street 2", "Avenue 3", "Road 4", "Drive 5"]

/-- One iteration of the generation loop in `get_ura_transactions`
(`variance = (hash(f"{district}{i}") % 20 - 10) / 100`, Python `%` being
floor-mod, i.e. `Int.emod`). -/
def mk_ura_transaction (hashFn : String → ℤ) (now : ℤ) (district : ℤ)
    (property_type : String) (months : ℕ) (i : ℕ) : Transaction :=
  let size := ura_sizes.getD (i % ura_sizes.length) 0
  let variance : ℚ := (((hashFn (toString district ++ toString i)).emod 20 - 10 : ℤ) : ℚ) / 100
  let psf := base_psf_of property_type * district_multiplier district * (1 + variance)
  let price := psf * size
  let days_ago := (i * 15) % (months * 30)
  ⟨"Block " ++ toString (100 + i * 10) ++ " " ++
      ura_streets.getD (i % ura_streets.length) "" ++ ", District " ++ toString district,
   property_type, size, price, now - (days_ago : ℤ),
   some (if property_type = "condo" then "99" else "freehold"), true⟩

/-- Most-recent-first order used by `sorted(..., key=lambda x: x.date, reverse=True)`. -/
def dateDesc (a b : Transaction) : Prop := b.date ≤ a.date

instance : DecidableRel dateDesc := fun a b =>
  inferInstanceAs (Decidable (b.date ≤ a.date))

/-- `market_data.get_ura_transactions`: ten simulated transactions, sorted
most-recent-first. -/
def get_ura_transactions (hashFn : String → ℤ) (now : ℤ) (district : ℤ)
    (property_type : String) (months : ℕ) : List Transaction :=
  List.insertionSort dateDesc
    ((List.range 10).map (mk_ura_transaction hashFn now district property_type months))

/-- `market_data.analyze_market`: fetches the built-in source (6-month
lookback) and analyzes it. -/
def analyze_market (hashFn : String → ℤ) (now : ℤ) (target_price target_size : ℚ)
    (district : ℤ) (property_type : String) : Except String MarketAnalysis :=
  analyze_market_core target_price target_size
    (get_ura_transactions hashFn now district property_type 6) now

/-! ## C8: the median convention -/

/-- C8: for every sample whose positive price-per-area list is non-empty, the
median reported by the market analysis equals the element at index ⌊n/2⌋ of the
ascending-sorted list of the n positive PSF values (the upper of the two
central elements for even n, not their average): the sorted list is an
ascending-sorted permutation of the PSF values and the index is in bounds. -/
theorem market_median_upper_index (tp ts : ℚ) (txs : List Transaction) (now : ℤ)
    (hts : 0 < ts) (hne : psf_values_of txs ≠ []) :
    ∃ a, analyze_market_core tp ts txs now = Except.ok a ∧
      a.median_nearby_psf =
        (sortedAsc (psf_values_of txs)).getD ((psf_values_of txs).length / 2) 0 ∧
      (psf_values_of txs).length / 2 < (sortedAsc (psf_values_of txs)).length ∧
      (sortedAsc (psf_values_of txs)).Sorted (· ≤ ·) ∧
      List.Perm (sortedAsc (psf_values_of txs)) (psf_values_of txs) := by
  have htxs : txs ≠ [] := by
    intro h
    apply hne
    rw [h]
    rfl
  have hlen : 0 < (psf_values_of txs).length := List.length_pos.mpr hne
  simp only [analyze_market_core]
  rw [if_neg (not_le.mpr hts), if_neg htxs, if_neg hne]
  refine ⟨_, rfl, rfl, ?_, ?_, ?_⟩
  · rw [sortedAsc, List.length_insertionSort]
    exact Nat.div_lt_self hlen (by norm_num)
  · exact List.sorted_insertionSort _ _
  · exact List.perm_insertionSort _ _

/-- Four concrete comparables with PSF values 10, 20, 40, 30 (even-length
sample; sorted central pair is 20, 30). -/
def demoTxsC8 : List Transaction :=
  [⟨"a", "condo", 1, 10, 0, none, true⟩,
   ⟨"b", "condo", 1, 20, 0, none, true⟩,
   ⟨"c", "condo", 1, 40, 0, none, true⟩,
   ⟨"d", "condo", 1, 30, 0, none, true⟩]

/-- Witness for C8: on the four-element sample the reported median is 30, the
upper of the two central elements (an averaged median would give 25). -/
theorem market_median_upper_index_witness :
    ∃ a, analyze_market_core 100 1 demoTxsC8 0 = Except.ok a ∧
      a.median_nearby_psf = 30 := by
  have hpsf : psf_values_of demoTxsC8 = [10, 20, 40, 30] := by
    norm_num [psf_values_of, demoTxsC8, Transaction.psf, List.filter]
  obtain ⟨a, ha, hmed, -, -, -⟩ :=
    market_median_upper_index 100 1 demoTxsC8 0 (by norm_num)
      (by rw [hpsf]; simp)
  refine ⟨a, ha, ?_⟩
  rw [hmed, hpsf]
  norm_num [sortedAsc, List.insertionSort, List.orderedInsert]

/-! ## C9: trend classification -/

/-- The trend computed on a sample is always one of rising/falling/stable. -/
lemma trend_of_ne_unknown (txs : List Transaction) (now : ℤ) :
    trend_of txs now ≠ "unknown" := by
  simp only [trend_of]
  split_ifs <;> simp

/-- C9: with a positive target size, an empty sample yields trend "unknown";
a sample with valid PSF data and both partitions (within / beyond 90 days of
now) non-empty yields rising / falling / stable by comparing the recent mean
PSF against 1.05× / 0.95× the older mean; if either partition is empty the
trend is "stable"; and "unknown" is only ever produced by an empty sample. -/
theorem market_trend_classification (tp ts : ℚ) (txs : List Transaction) (now : ℤ)
    (hts : 0 < ts) :
    (txs = [] → ∃ a, analyze_market_core tp ts txs now = Except.ok a ∧
      a.price_trend = "unknown") ∧
    (psf_values_of txs ≠ [] → recent_of txs now ≠ [] → older_of txs now ≠ [] →
      ∃ a, analyze_market_core tp ts txs now = Except.ok a ∧
        a.price_trend =
          (if avg_of ((recent_of txs now).map Transaction.psf) >
              avg_of ((older_of txs now).map Transaction.psf) * (105/100) then "rising"
           else if avg_of ((recent_of txs now).map Transaction.psf) <
              avg_of ((older_of txs now).map Transaction.psf) * (95/100) then "falling"
           else "stable")) ∧
    (psf_values_of txs ≠ [] → (recent_of txs now = [] ∨ older_of txs now = []) →
      ∃ a, analyze_market_core tp ts txs now = Except.ok a ∧
        a.price_trend = "stable") ∧
    (∀ a, analyze_market_core tp ts txs now = Except.ok a →
      a.price_trend = "unknown" → txs = []) := by
  refine ⟨?_, ?_, ?_, ?_⟩
  · intro h
    subst h
    have hcore : analyze_market_core tp ts ([] : List Transaction) now =
        Except.ok ⟨tp / ts, 0, 0, 0, 0, [], "unknown", true, "simulated"⟩ := by
      unfold analyze_market_core
      rw [if_neg (not_le.mpr hts), if_pos rfl]
    exact ⟨_, hcore, rfl⟩
  · intro hpsf hr ho
    have htxs : txs ≠ [] := by
      intro h
      apply hr
      rw [h]
      rfl
    simp only [analyze_market_core]
    rw [if_neg (not_le.mpr hts), if_neg htxs, if_neg hpsf]
    refine ⟨_, rfl, ?_⟩
    simp only [trend_of]
    rw [if_pos ⟨hr, ho⟩]
  · intro hpsf hcase
    have htxs : txs ≠ [] := by
      intro h
      apply hpsf
      rw [h]
      rfl
    simp only [analyze_market_core]
    rw [if_neg (not_le.mpr hts), if_neg htxs, if_neg hpsf]
    refine ⟨_, rfl, ?_⟩
    simp only [trend_of]
    rw [if_neg ?_]
    push_neg
    intro hr
    rcases hcase with h | h
    · exact absurd h hr
    · exact h
  · intro a ha hunk
    by_cases htxs : txs = []
    · exact htxs
    exfalso
    simp only [analyze_market_core] at ha
    rw [if_neg (not_le.mpr hts), if_neg htxs] at ha
    by_cases hpsf : psf_values_of txs = []
    · rw [if_pos hpsf] at ha
      exact Except.noConfusion ha
    · rw [if_neg hpsf] at ha
      have := Except.ok.inj ha
      rw [← this] at hunk
      exact trend_of_ne_unknown txs now hunk

/-- Two comparables: one dated `now`, one 100 days old, with PSF 2 vs 1
(used to witness the rising branch of C9). -/
def demoTxsC9 : List Transaction :=
  [⟨"r", "condo", 1, 2, 0, none, true⟩,
   ⟨"o", "condo", 1, 1, -100, none, true⟩]

/-- Witness for C9: on the two-element sample the recent mean 2 exceeds 1.05×
the older mean 1, so the trend is "rising". -/
theorem market_trend_classification_witness :
    ∃ a, analyze_market_core 100 1 demoTxsC9 0 = Except.ok a ∧
      a.price_trend = "rising" := by
  have hrec : recent_of demoTxsC9 0 = [⟨"r", "condo", 1, 2, 0, none, true⟩] := by
    norm_num [recent_of, demoTxsC9, List.filter]
  have hold : older_of demoTxsC9 0 = [⟨"o", "condo", 1, 1, -100, none, true⟩] := by
    norm_num [older_of, demoTxsC9, List.filter]
  have hpsfeq : psf_values_of demoTxsC9 = [2, 1] := by
    norm_num [psf_values_of, demoTxsC9, Transaction.psf, List.filter]
  have hpsf : psf_values_of demoTxsC9 ≠ [] := by
    rw [hpsfeq]
    simp
  obtain ⟨a, ha, htrend⟩ :=
    (market_trend_classification 100 1 demoTxsC9 0 (by norm_num)).2.1 hpsf
      (by rw [hrec]; simp) (by rw [hold]; simp)
  refine ⟨a, ha, ?_⟩
  rw [htrend, hrec, hold, if_pos ?_]
  norm_num [avg_of, Transaction.psf]

/-! ## C10: the built-in simulated source -/

lemma district_multiplier_pos (d : ℤ) : 0 < district_multiplier d := by
  rw [district_multiplier]
  by_cases h1 : d = 9
  · rw [if_pos h1]; norm_num
  rw [if_neg h1]
  by_cases h2 : d = 10
  · rw [if_pos h2]; norm_num
  rw [if_neg h2]
  by_cases h3 : d = 11
  · rw [if_pos h3]; norm_num
  rw [if_neg h3]
  by_cases h4 : d = 1
  · rw [if_pos h4]; norm_num
  rw [if_neg h4]
  by_cases h5 : d = 2
  · rw [if_pos h5]; norm_num
  rw [if_neg h5]
  by_cases h6 : d = 4
  · rw [if_pos h6]; norm_num
  rw [if_neg h6]
  by_cases h7 : d = 15
  · rw [if_pos h7]; norm_num
  rw [if_neg h7]
  by_cases h8 : d = 16
  · rw [if_pos h8]; norm_num
  rw [if_neg h8]
  by_cases h9 : d = 18
  · rw [if_pos h9]; norm_num
  rw [if_neg h9]
  by_cases h10 : d = 19
  · rw [if_pos h10]; norm_num
  rw [if_neg h10]
  by_cases h11 : d = 20
  · rw [if_pos h11]; norm_num
  rw [if_neg h11]
  by_cases h12 : d = 21
  · rw [if_pos h12]; norm_num
  rw [if_neg h12]
  by_cases h13 : d = 22
  · rw [if_pos h13]; norm_num
  rw [if_neg h13]
  by_cases h14 : d = 23
  · rw [if_pos h14]; norm_num
  rw [if_neg h14]
  by_cases h15 : d = 24
  · rw [if_pos h15]; norm_num
  rw [if_neg h15]
  by_cases h16 : d = 25
  · rw [if_pos h16]; norm_num
  rw [if_neg h16]
  by_cases h17 : d = 26
  · rw [if_pos h17]; norm_num
  rw [if_neg h17]
  by_cases h18 : d = 27
  · rw [if_pos h18]; norm_num
  rw [if_neg h18]
  by_cases h19 : d = 28
  · rw [if_pos h19]; norm_num
  rw [if_neg h19]
  norm_num

lemma base_psf_pos (pt : String) : 0 < base_psf_of pt := by
  rw [base_psf_of]
  by_cases h1 : pt = "condo"
  · rw [if_pos h1]; norm_num
  rw [if_neg h1]
  by_cases h2 : pt = "hdb"
  · rw [if_pos h2]; norm_num
  rw [if_neg h2]
  by_cases h3 : pt = "landed"
  · rw [if_pos h3]; norm_num
  rw [if_neg h3]
  norm_num

/-- The hash-derived variance lies in [−0.10, 0.09], so `1 + variance > 0`. -/
lemma one_plus_variance_pos (z : ℤ) :
    (0 : ℚ) < 1 + ((z.emod 20 - 10 : ℤ) : ℚ) / 100 := by
  have h1 : (0 : ℤ) ≤ z.emod 20 := Int.emod_nonneg z (by norm_num)
  have h1q : (0 : ℚ) ≤ ((z.emod 20 : ℤ) : ℚ) := by exact_mod_cast h1
  push_cast
  linarith

lemma ura_size_pos (i : ℕ) : 0 < ura_sizes.getD (i % ura_sizes.length) 0 := by
  have hlen : ura_sizes.length = 7 := rfl
  set j := i % ura_sizes.length with hj
  have h : j < 7 := by
    rw [hj, hlen]
    exact Nat.mod_lt _ (by norm_num)
  interval_cases j <;> norm_num [ura_sizes]

lemma transaction_psf_pos (t : Transaction) (hs : 0 < t.size_sqft)
    (hp : 0 < t.price) : 0 < t.psf := by
  unfold Transaction.psf
  rw [if_pos ⟨ne_of_gt hs, hs⟩]
  exact div_pos hp hs

lemma mk_ura_transaction_pos (hashFn : String → ℤ) (now district : ℤ)
    (pt : String) (months : ℕ) (i : ℕ) :
    0 < (mk_ura_transaction hashFn now district pt months i).size_sqft ∧
    0 < (mk_ura_transaction hashFn now district pt months i).price ∧
    0 < (mk_ura_transaction hashFn now district pt months i).psf := by
  have hsize : (mk_ura_transaction hashFn now district pt months i).size_sqft =
      ura_sizes.getD (i % ura_sizes.length) 0 := rfl
  have hprice : (mk_ura_transaction hashFn now district pt months i).price =
      base_psf_of pt * district_multiplier district *
        (1 + (((hashFn (toString district ++ toString i)).emod 20 - 10 : ℤ) : ℚ) / 100) *
        ura_sizes.getD (i % ura_sizes.length) 0 := rfl
  have hs : 0 < (mk_ura_transaction hashFn now district pt months i).size_sqft := by
    rw [hsize]
    exact ura_size_pos i
  have hp : 0 < (mk_ura_transaction hashFn now district pt months i).price := by
    rw [hprice]
    exact mul_pos (mul_pos (mul_pos (base_psf_pos pt) (district_multiplier_pos district))
      (one_plus_variance_pos _)) (ura_size_pos i)
  exact ⟨hs, hp, transaction_psf_pos _ hs hp⟩

lemma get_ura_length (hashFn : String → ℤ) (now district : ℤ) (pt : String)
    (months : ℕ) : (get_ura_transactions hashFn now district pt months).length = 10 := by
  unfold get_ura_transactions
  rw [List.length_insertionSort, List.length_map, List.length_range]

lemma get_ura_mem (hashFn : String → ℤ) (now district : ℤ) (pt : String)
    (months : ℕ) (t : Transaction)
    (ht : t ∈ get_ura_transactions hashFn now district pt months) :
    ∃ i, t = mk_ura_transaction hashFn now district pt months i := by
  unfold get_ura_transactions at ht
  have hmem := (List.perm_insertionSort dateDesc
    ((List.range 10).map (mk_ura_transaction hashFn now district pt months))).mem_iff.mp ht
  rw [List.mem_map] at hmem
  obtain ⟨i, -, hi⟩ := hmem
  exact ⟨i, hi.symm⟩

/-- The main branch of the analysis, for any non-degenerate sample. -/
lemma analyze_market_core_main (tp ts : ℚ) (txs : List Transaction) (now : ℤ)
    (hts : 0 < ts) (htxs : txs ≠ []) (hpsf : psf_values_of txs ≠ []) :
    ∃ a, analyze_market_core tp ts txs now = Except.ok a ∧
      a.transactions = txs ∧ a.price_trend = trend_of txs now := by
  simp only [analyze_market_core]
  rw [if_neg (not_le.mpr hts), if_neg htxs, if_neg hpsf]
  exact ⟨_, rfl, rfl, rfl⟩

/-- C10: the built-in source returns exactly 10 transactions, each with
positive size, positive price and hence positive PSF — for every hash oracle,
clock, district and category — so with a positive target size `analyze_market`
always takes the main branch: the empty-sample zero-filled analysis and the
"No valid PSF data" error are unreachable with this source. -/
theorem ura_source_never_degenerate (hashFn : String → ℤ) (now district : ℤ)
    (property_type : String) (tp ts : ℚ) (hts : 0 < ts) :
    (get_ura_transactions hashFn now district property_type 6).length = 10 ∧
    (∀ t ∈ get_ura_transactions hashFn now district property_type 6,
      0 < t.size_sqft ∧ 0 < t.price ∧ 0 < t.psf) ∧
    (∃ a, analyze_market hashFn now tp ts district property_type = Except.ok a ∧
      a.transactions.length = 10 ∧ a.price_trend ≠ "unknown") := by
  have hlen := get_ura_length hashFn now district property_type 6
  have hpos : ∀ t ∈ get_ura_transactions hashFn now district property_type 6,
      0 < t.size_sqft ∧ 0 < t.price ∧ 0 < t.psf := by
    intro t ht
    obtain ⟨i, hi⟩ := get_ura_mem hashFn now district property_type 6 t ht
    rw [hi]
    exact mk_ura_transaction_pos hashFn now district property_type 6 i
  have htxs : get_ura_transactions hashFn now district property_type 6 ≠ [] := by
    intro h
    rw [h] at hlen
    exact absurd hlen (by norm_num)
  have hpsfne : psf_values_of (get_ura_transactions hashFn now district property_type 6) ≠ [] := by
    obtain ⟨t, ht⟩ := List.exists_mem_of_ne_nil _ htxs
    apply List.ne_nil_of_mem (a := t.psf)
    exact List.mem_filter.mpr ⟨List.mem_map_of_mem _ ht,
      decide_eq_true (hpos t ht).2.2⟩
  refine ⟨hlen, hpos, ?_⟩
  obtain ⟨a, ha, htr, htrend⟩ := analyze_market_core_main tp ts
    (get_ura_transactions hashFn now district property_type 6) now hts htxs hpsfne
  refine ⟨a, ha, ?_, ?_⟩
  · rw [htr]
    exact hlen
  · rw [htrend]
    exact trend_of_ne_unknown _ now

/-- Witness for C10 with the constant-zero hash oracle, district 19, condos,
and target 1,250,000 over 1,000 sqft. -/
theorem ura_source_never_degenerate_witness :
    (get_ura_transactions (fun _ => 0) 0 19 "condo" 6).length = 10 ∧
    (∃ a, analyze_market (fun _ => 0) 0 1250000 1000 19 "condo" = Except.ok a ∧
      a.transactions.length = 10 ∧ a.price_trend ≠ "unknown") := by
  obtain ⟨h1, -, h3⟩ := ura_source_never_degenerate (fun _ => 0) 0 19 "condo"
    1250000 1000 (by norm_num)
  exact ⟨h1, h3⟩

end SgProperty
